import Mathlib

/-!
Verification of the JupyterLab Demo deployment orchestrator
(jld_deploy/deploy.py) against its natural-language specification.

The Python module is shallowly embedded: the parameter dictionary becomes
an association list from string keys to scalar values, mutation becomes
explicit state passing, raised exceptions become explicit error components,
and the unbounded polling loop becomes a fuel-indexed step function whose
result is `none` exactly when the loop has not produced an outcome within
the given number of iterations.
-/

/-- Scalar values stored in the deployment parameter dictionary: strings,
Python ints, and lists of strings (the organization whitelist). -/
inductive Value where
  | str : String → Value
  | int : Int → Value
  | list : List String → Value
deriving DecidableEq, Repr

/-- Python truthiness for the value types that occur in the parameter
dictionary: empty string, zero and empty list are falsy. -/
def Value.truthy : Value → Bool
  | .str s => !(s == "")
  | .int n => !(n == 0)
  | .list l => !(l == [])

/-- The parameter dictionary `self.params`, embedded as an association
list with unique keys maintained by `setParam`. -/
abbrev Params := List (String × Value)

/-- Dictionary lookup, `self.params[key]` returning `none` when absent. -/
def getParam : Params → String → Option Value
  | [], _ => none
  | (k, v) :: rest, key => if k = key then some v else getParam rest key

/-- Dictionary update `self.params[key] = v`: replaces the binding in
place when the key exists, otherwise appends it. -/
def setParam : Params → String → Value → Params
  | [], key, v => [(key, v)]
  | (k, w) :: rest, key, v =>
      if k = key then (key, v) :: rest else (k, w) :: setParam rest key v

/-- Embeds `JupyterLabDeployment._empty_param` (deploy.py:182-185): a key
is empty when absent or bound to a falsy value. -/
def emptyParam (p : Params) (key : String) : Bool :=
  match getParam p key with
  | none => true
  | some v => !v.truthy

/-- Embeds `JupyterLabDeployment._any_empty` (deploy.py:187-191). -/
def anyEmpty (p : Params) (keys : List String) : Bool :=
  keys.any (emptyParam p)

/-- `REQUIRED_PARAMETER_NAMES` (deploy.py:63-64): the keys required for
teardown. -/
def REQUIRED_PARAMETER_NAMES : List String :=
  ["kubernetes_cluster_name", "hostname"]

/-- `REQUIRED_DEPLOYMENT_PARAMETER_NAMES` (deploy.py:65-72): the keys
required for deployment. -/
def REQUIRED_DEPLOYMENT_PARAMETER_NAMES : List String :=
  REQUIRED_PARAMETER_NAMES ++
    ["github_client_id", "github_client_secret",
     "github_organization_whitelist", "tls_cert", "tls_key",
     "tls_root_chain"]

/-- `PARAMETER_NAMES` (deploy.py:73-84): the full recognized key
vocabulary. -/
def PARAMETER_NAMES : List String :=
  REQUIRED_DEPLOYMENT_PARAMETER_NAMES ++
    ["kubernetes_cluster_namespace", "gke_zone", "gke_node_count",
     "gke_machine_type", "volume_size_gigabytes", "session_db_url",
     "shipper_name", "rabbitmq_pan_password", "rabbitmq_target_host",
     "rabbitmq_target_vhost", "firefly_admin_password"]

/-- `DEFAULT_GKE_ZONE` (deploy.py:58). -/
def DEFAULT_GKE_ZONE : String := "us-central1-a"

/-- `DEFAULT_GKE_MACHINE_TYPE` (deploy.py:59). -/
def DEFAULT_GKE_MACHINE_TYPE : String := "n1-standard-2"

/-- `DEFAULT_GKE_NODE_COUNT` (deploy.py:60). -/
def DEFAULT_GKE_NODE_COUNT : Int := 2

/-- `DEFAULT_VOLUME_SIZE_GB` (deploy.py:61). -/
def DEFAULT_VOLUME_SIZE_GB : Int := 20

/-- Character map used by `hname.translate` at deploy.py:217: every dot
becomes a dash. -/
def dotToDash (c : Char) : Char := if c = '.' then '-' else c

/-- Cluster name derived from the hostname (deploy.py:216-217). -/
def derivedClusterName (hname : String) : String :=
  String.mk (hname.data.map dotToDash)

/-- Message of the `ValueError` raised at deploy.py:221-222 (quoting
characters omitted). -/
def clusterNameMsg : String :=
  "kubernetes_cluster_name must be set, either explicitly or from hostname."

/-- Message standing for the `AttributeError` Python raises at
deploy.py:217 when the hostname value is truthy but not a string. -/
def attrErrMsg : String := "AttributeError: hostname has no translate"

/-- Assign a default value to a key when the key is currently empty, the
pattern used throughout `_get_cluster_info` and
`_validate_deployment_params`. -/
def defaultKey (p : Params) (key : String) (v : Value) : Params :=
  if emptyParam p key then setParam p key v else p

/-- Defaulting performed by the non-raising branch of
`_get_cluster_info` (deploy.py:223-228): namespace and GKE zone receive
defaults when empty. -/
def applyDefaults (p : Params) : Params :=
  defaultKey
    (defaultKey p "kubernetes_cluster_namespace" (Value.str "default"))
    "gke_zone" (Value.str DEFAULT_GKE_ZONE)

/-- Log lines emitted by the defaulting branch of `_get_cluster_info`.
The zone check reads the incoming dictionary; setting the namespace key
first cannot change the emptiness of the distinct zone key. -/
def defaultLogs (p : Params) : List String :=
  (if emptyParam p "kubernetes_cluster_namespace" then
     ["Using default cluster namespace default."]
   else []) ++
  (if emptyParam p "gke_zone" then
     ["Using default gke_zone " ++ DEFAULT_GKE_ZONE ++ "."]
   else [])

/-- Embeds `JupyterLabDeployment._get_cluster_info` (deploy.py:213-228).
Returns the dictionary as mutated, the warning/info log lines, and the
message of the exception raised, if any.  Note that in the source the
`raise ValueError` at line 221 is not guarded by an `else`: it executes
whenever the cluster name was initially empty, even after a cluster name
has just been derived from the hostname and stored. -/
def getClusterInfo (p : Params) : Params × List String × Option String :=
  if emptyParam p "kubernetes_cluster_name" then
    if emptyParam p "hostname" then (p, [], some clusterNameMsg)
    else
      match getParam p "hostname" with
      | some (Value.str hname) =>
          (setParam p "kubernetes_cluster_name"
             (Value.str (derivedClusterName hname)),
           ["Using default derived cluster name " ++
              derivedClusterName hname],
           some clusterNameMsg)
      | _ => (p, [], some attrErrMsg)
  else
    (applyDefaults p, defaultLogs p, none)

/-- Message standing for the `NameError` raised at deploy.py:178: the
unknown-key warning loop iterates over the name `params`, which is
unbound at module scope, so evaluating it raises before any iteration. -/
def nameErrorMsg : String := "NameError: name params is not defined"

/-- Embeds `JupyterLabDeployment._set_params` (deploy.py:174-180).
`selfParams` is `self.params` (`none` models Python `None`); `yamlDoc` is
the parameter document loaded from the YAML file.  When `self.params` is
falsy the document is loaded and then the loop `for p in params:` raises
`NameError` because `params` is not defined in any enclosing scope, so no
unknown-key warning is ever logged.  Result: final params, log lines,
raised error if any. -/
def setParams (selfParams : Option Params) (yamlDoc : Params) :
    Params × List String × Option String :=
  match selfParams with
  | some q => if q = [] then (yamlDoc, [], some nameErrorMsg) else (q, [], none)
  | none => (yamlDoc, [], some nameErrorMsg)

/-- Message of the `ValueError` raised at deploy.py:233-234.  The Python
text interpolates `str(REQUIRED_PARAMETER_NAMES)`; the whole list is
named, not the single missing key. -/
def requiredMsg : String :=
  "All parameters " ++ toString REQUIRED_PARAMETER_NAMES ++
    " must be specified!"

/-- Message of the `ValueError` raised at deploy.py:239. -/
def volumeMsg : String := "Shared volume must be at least 1 GiB!"

/-- Message standing for the `TypeError` Python raises at deploy.py:238
when `volume_size_gigabytes` holds a non-integer value that cannot be
ordered against `1`. -/
def typeErrMsg : String := "TypeError: volume_size_gigabytes not an int"

/-- Embeds `JupyterLabDeployment._validate_deployment_params`
(deploy.py:230-244).  It calls `_get_cluster_info`, then checks only
`REQUIRED_PARAMETER_NAMES` (the teardown subset) for emptiness, defaults
the volume size to 20 and rejects sizes below 1, and defaults the GKE
machine type and node count.  No key in
`REQUIRED_DEPLOYMENT_PARAMETER_NAMES` beyond the teardown subset is
examined. -/
def validateDeploymentParams (p : Params) : Except String Params :=
  match getClusterInfo p with
  | (_, _, some e) => Except.error e
  | (p1, _, none) =>
    if anyEmpty p1 REQUIRED_PARAMETER_NAMES then Except.error requiredMsg
    else
      let p2 := defaultKey p1 "volume_size_gigabytes"
        (Value.int DEFAULT_VOLUME_SIZE_GB)
      match getParam p2 "volume_size_gigabytes" with
      | some (Value.int n) =>
          if n < 1 then Except.error volumeMsg
          else
            Except.ok (defaultKey
              (defaultKey p2 "gke_machine_type"
                (Value.str DEFAULT_GKE_MACHINE_TYPE))
              "gke_node_count" (Value.int DEFAULT_GKE_NODE_COUNT))
      | _ => Except.error typeErrMsg

/-- Boolean success test on the validator result. -/
def isOkE (e : Except String Params) : Bool :=
  match e with
  | Except.ok _ => true
  | Except.error _ => false

/-- The optional logging-feature key group, `logging_vars` at
deploy.py:268-274. -/
def logging_vars : List String :=
  ["rabbitmq_pan_password", "rabbitmq_target_host", "rabbitmq_target_vhost",
   "log_shipper_name", "beats_key", "beats_ca", "beats_cert"]

/-- Result of `_check_optional`: the mutated dictionary plus the
`enable_firefly` and `enable_logging` flags, whose class-attribute
defaults are `False` (deploy.py:96,98) and which are set only by this
method. -/
structure OptionalFlags where
  params : Params
  enable_firefly : Bool
  enable_logging : Bool
deriving DecidableEq, Repr

/-- Firefly group handling (deploy.py:264-267): an empty admin password
is replaced by the empty string and the flag stays off; otherwise the
flag is turned on. -/
def fireflyStep (p : Params) : Params × Bool :=
  if emptyParam p "firefly_admin_password" then
    (setParam p "firefly_admin_password" (Value.str ""), false)
  else (p, true)

/-- Reset every key of a group to the empty string, the loop at
deploy.py:276-277. -/
def blankAll (p : Params) (keys : List String) : Params :=
  keys.foldl (fun q k => setParam q k (Value.str "")) p

/-- Logging group handling (deploy.py:275-279): if any key of the group
is empty, every key is reset to the empty string and the flag stays off;
otherwise the flag is turned on. -/
def loggingStep (p : Params) : Params × Bool :=
  if anyEmpty p logging_vars then (blankAll p logging_vars, false)
  else (p, true)

/-- Session database default (deploy.py:280-282). -/
def sessionStep (p : Params) : Params :=
  defaultKey p "session_db_url"
    (Value.str "sqlite:////home/jupyter/jupyterhub.sqlite")

/-- DH parameter bit-size default (deploy.py:283-286); the openssl
executable-path check is an environment probe with no effect on the
dictionary. -/
def dhparamStep (p : Params) : Params :=
  if emptyParam p "tls_dhparam" then
    defaultKey p "dhparam_bits" (Value.int 2048)
  else p

/-- Embeds `JupyterLabDeployment._check_optional` (deploy.py:261-286). -/
def checkOptional (p : Params) : OptionalFlags :=
  let f := fireflyStep p
  let l := loggingStep f.1
  ⟨dhparamStep (sessionStep l.1), f.2, l.2⟩

/-- Integer significand of the IEEE-754 double nearest to the literal
`0.95` at deploy.py:250: the double is `D95 * 2 ^ (-53)`, and
`20 * D95 + 8 = 19 * 2 ^ 53`, so the double underestimates the exact
19/20 by 0.4 units in the last place (less than the half unit that would
make some other double nearer). -/
def D95 : Nat := 8556839292003942

/-- Round `N / 2 ^ k` to the nearest integer, ties to even — the
significand-rounding step of IEEE-754 round-to-nearest as integer
arithmetic (for `k = 0` this is exact). -/
def rnEven (N k : Nat) : Nat :=
  let q := N / 2 ^ k
  let r := N % 2 ^ k
  if r < 2 ^ (k - 1) then q
  else if 2 ^ (k - 1) < r then q + 1
  else if q % 2 = 0 then q else q + 1

/-- Bit length, fuel-indexed so the definition is structural; each step
halves the argument, so any fuel at least the bit length is enough. -/
def bitLenAux : Nat → Nat → Nat
  | 0, _ => 0
  | fuel + 1, n => if n = 0 then 0 else bitLenAux fuel (n / 2) + 1

/-- Bit length of a natural number.  The fuel 2048 covers every value
below the IEEE-754 double overflow threshold `2 ^ 1024`, beyond which
Python raises OverflowError converting the int to float, so the
embedding is only ever used below it. -/
def bitLen (n : Nat) : Nat := bitLenAux 2048 n

/-- The double nearest to the integer `n` (round to nearest, ties to
even): exact below `2 ^ 53`, otherwise the top 53 bits of `n` rounded —
the conversion Python performs on the int operand of `0.95 * sz`. -/
def flNat (n : Nat) : Nat :=
  if bitLen n ≤ 53 then n
  else rnEven n (bitLen n - 53) * 2 ^ (bitLen n - 53)

/-- Embeds Python `int(0.95 * sz)` for positive `sz` (deploy.py:250):
the literal 0.95 becomes the double `D95 * 2 ^ (-53)`; the int `sz`
becomes the double `flNat sz`; their exact product `D95 * flNat sz`
(scaled by `2 ^ (-53)`) is rounded to the nearest double by rounding its
top 53 bits half-to-even; the truncation of the positive result is its
floor, natural division by `2 ^ 53`. -/
def truncProd95 (n : Nat) : Nat :=
  let N := D95 * flNat n
  let k := bitLen N - 53
  rnEven N k * 2 ^ k / 2 ^ 53

/-- Embeds `JupyterLabDeployment._normalize_params` (deploy.py:246-259).
The Python `int(0.95 * sz)` computes the double-precision product and
truncates, embedded faithfully by `truncProd95`; for sizes up to
`10 ^ 14` this agrees with exact floor division `19 * sz / 20` (proved
below), but for larger validated sizes the rounded product can exceed
the exact floor.  `int(...)` is modelled on integer-valued parameters
(the canonicalization at deploy.py:998-1000 has already converted
numeric strings). -/
def normalizeParams (p : Params) : Except String OptionalFlags :=
  match getParam p "volume_size_gigabytes" with
  | some (Value.int sz) =>
    let p1 := setParam p "volume_size" (Value.str (toString sz ++ "Gi"))
    let nfs_sz :=
      if 1 < sz then toString (truncProd95 sz.toNat) ++ "Gi" else "950Mi"
    let p2 := setParam p1 "nfs_volume_size" (Value.str nfs_sz)
    match getParam p2 "hostname" with
    | some (Value.str h) =>
      let p3 := setParam p2 "github_callback_url"
        (Value.str ("https://" ++ h ++ "/hub/oauth_callback"))
      match getParam p3 "github_organization_whitelist" with
      | some (Value.list wl) =>
          Except.ok (checkOptional (setParam p3
            "github_organization_whitelist"
            (Value.str (String.intercalate "," wl))))
      | _ => Except.error "TypeError: whitelist join needs a list"
    | _ => Except.error "KeyError: hostname"
  | _ => Except.error "ValueError: volume_size_gigabytes"

/-! ### The polling loop -/

/-- Outcome of one `_waitfor` run: the truthy probe value together with
the number of probe calls made, or the timeout message together with the
number of probe calls made. -/
inductive WaitResult where
  | ok : Value → Nat → WaitResult
  | timeout : String → Nat → WaitResult
deriving DecidableEq, Repr

/-- Message of the `RuntimeError` raised at deploy.py:562-564, which
interpolates the try budget and the per-try delay. -/
def timeoutMsg (tries delay : Int) : String :=
  "Callback did not succeed after " ++ toString tries ++ " " ++
    toString delay ++ "s iterations"

/-- One unrolling of the `while True` loop of
`JupyterLabDeployment._waitfor` (deploy.py:552-564), embedded with
explicit fuel: `i` is the attempt counter (the probe for attempt `i + 1`
is about to run) and the result is `none` when the loop has neither
returned nor raised within `fuel` further iterations.  Each iteration
increments the counter, calls the probe, returns a truthy result, and
otherwise raises exactly when the counter has reached `tries`. -/
def waitforAux (probe : Nat → Value) (delay tries : Int) :
    Nat → Nat → Option WaitResult
  | _, 0 => none
  | i, fuel + 1 =>
      let i1 := i + 1
      let rc := probe i1
      if rc.truthy then some (WaitResult.ok rc i1)
      else if (i1 : Int) = tries then
        some (WaitResult.timeout (timeoutMsg tries delay) i1)
      else waitforAux probe delay tries i1 fuel

/-- `JupyterLabDeployment._waitfor` from the initial counter `i = 0`. -/
def waitfor (probe : Nat → Value) (delay tries : Int) (fuel : Nat) :
    Option WaitResult :=
  waitforAux probe delay tries 0 fuel

/-- Default `delay=10` of `_waitfor` (deploy.py:552), used by every call
site that does not pass a delay. -/
def WAITFOR_DEFAULT_DELAY : Int := 10

/-- Default `tries=10` of `_waitfor` (deploy.py:552), the budget used by
creation-time fileserver address discovery (deploy.py:534). -/
def WAITFOR_DEFAULT_TRIES : Int := 10

/-- Default `tries=60` of `_destroy_pods_with_callback` (deploy.py:621),
the budget used by the teardown pod-exit polls (deploy.py:618-619,
649-650). -/
def DESTROY_PODS_DEFAULT_TRIES : Int := 60

/-- Embeds `JupyterLabDeployment._destroy_pods_with_callback`
(deploy.py:621-635).  The inner `_waitfor` runs with the caller-supplied
try budget and the default delay; a timeout is re-raised when
`existing_cluster` is set (the cluster is being preserved) and is
downgraded to a warning otherwise.  Returns `none` when the poll loop has
not finished within `fuel` iterations, otherwise either the propagated
error message or the log lines of the completed call. -/
def destroyPodsWithCallback (probe : Nat → Value) (poddesc : String)
    (existingCluster : Bool) (tries : Int) (fuel : Nat) :
    Option (Except String (List String)) :=
  let l0 := "Waiting for " ++ poddesc ++ " pods to exit."
  match waitfor probe WAITFOR_DEFAULT_DELAY tries fuel with
  | none => none
  | some (WaitResult.ok _ _) =>
      some (Except.ok [l0, "All " ++ poddesc ++ " pods exited."])
  | some (WaitResult.timeout msg _) =>
      if existingCluster then some (Except.error msg)
      else
        some (Except.ok
          [l0, "All " ++ poddesc ++ " pods did not exit.  Continuing."])

/-! ### The kubectl context manager -/

/-- Result of a Python block: a normal value or a propagating exception
message. -/
inductive Outcome (α : Type) where
  | ok : α → Outcome α
  | raised : String → Outcome α
deriving DecidableEq, Repr

/-- Embeds `JupyterLabDeployment.kubecontext` (deploy.py:116-129).
`ambient` is the process-wide kubectl current-context name (empty when no
context is set); `body` is the orchestration run executed inside the
`with` block, transforming the ambient context and yielding an outcome.
The source is a `contextlib.contextmanager` generator whose `yield` is
not wrapped in `try`/`finally`: when the body raises, the exception is
thrown into the generator at the `yield` and the restore command after it
never executes, so the ambient context stays wherever the body left it.
On normal completion the saved context is restored when one was captured.
`checkAuthOk` models `_check_authentication` succeeding before anything
else runs. -/
def kubecontext {α : Type} (checkAuthOk : Bool) (ambient : String)
    (body : String → Outcome α × String) : Outcome α × String :=
  if checkAuthOk then
    let original : Option String := if ambient = "" then none else some ambient
    match body ambient with
    | (Outcome.ok a, ambient1) =>
        match original with
        | some oc => (Outcome.ok a, oc)
        | none => (Outcome.ok a, ambient1)
    | (Outcome.raised e, ambient1) => (Outcome.raised e, ambient1)
  else (Outcome.raised "authentication check failed", ambient)

/-! ### The base64 secret cache -/

/-- UTF-8 encoding of a single code point, byte values as naturals. -/
def utf8Bytes (n : Nat) : List Nat :=
  if n < 128 then [n]
  else if n < 2048 then [192 + n / 64, 128 + n % 64]
  else if n < 65536 then
    [224 + n / 4096, 128 + (n / 64) % 64, 128 + n % 64]
  else
    [240 + n / 262144, 128 + (n / 4096) % 64, 128 + (n / 64) % 64,
     128 + n % 64]

/-- UTF-8 bytes of a string, `val.encode(utf-8)` at deploy.py:345. -/
def strBytes (s : String) : List Nat :=
  (s.data.map (fun c => utf8Bytes c.toNat)).flatten

/-- Character `i` of the standard base64 alphabet. -/
def b64Char (n : Nat) : Char :=
  ("ABCDEFGHIJKLMNOPQRSTUVWXYZabcdefghijklmnopqrstuvwxyz0123456789+/".data).getD n '='

/-- RFC 4648 base64 of a byte list, `base64.b64encode` at deploy.py:346. -/
def b64EncodeBytes : List Nat → String
  | [] => ""
  | [a] =>
      String.mk [b64Char (a / 4), b64Char ((a % 4) * 16), '=', '=']
  | [a, b] =>
      String.mk [b64Char (a / 4), b64Char ((a % 4) * 16 + b / 16),
        b64Char ((b % 16) * 4), '=']
  | a :: b :: c :: rest =>
      String.mk [b64Char (a / 4), b64Char ((a % 4) * 16 + b / 16),
        b64Char ((b % 16) * 4 + c / 64), b64Char (c % 64)] ++
        b64EncodeBytes rest

/-- Base64 of the UTF-8 text of a string value. -/
def b64encode (s : String) : String := b64EncodeBytes (strBytes s)

/-- The `b64_cache` dictionary.  In the source it is a class attribute
(deploy.py:100) mutated in place by item assignment, so one dictionary is
shared by every `JupyterLabDeployment` instance created in the process;
runs therefore thread the same cache value from one to the next. -/
abbrev B64Cache := List (String × String)

/-- Cache lookup. -/
def cacheLookup : B64Cache → String → Option String
  | [], _ => none
  | (k, v) :: rest, key => if k = key then some v else cacheLookup rest key

/-- Cache update, replacing in place or appending. -/
def cacheSet : B64Cache → String → String → B64Cache
  | [], key, v => [(key, v)]
  | (k, w) :: rest, key, v =>
      if k = key then (key, v) :: rest else (k, w) :: cacheSet rest key v

/-- Embeds `JupyterLabDeployment.encode_value` (deploy.py:339-347).  The
`_empty` test (deploy.py:1053-1056) treats an absent key or a cached
empty string as missing, in which case the parameter value is read
(`KeyError` when absent), encoded, stored in the cache, and returned;
otherwise the cached encoding is returned without consulting the
parameter dictionary at all. -/
def encodeValue (cache : B64Cache) (p : Params) (key : String) :
    Except String (B64Cache × String) :=
  let compute : Except String (B64Cache × String) :=
    match getParam p key with
    | none => Except.error ("KeyError: " ++ key)
    | some (Value.str s) =>
        Except.ok (cacheSet cache key (b64encode s), b64encode s)
    | some _ => Except.error ("TypeError: " ++ key)
  match cacheLookup cache key with
  | some v => if v = "" then compute else Except.ok (cache, v)
  | none => compute

/-! ### Concrete probes used when instantiating polling theorems -/

/-- A probe that is empty on the first two calls and produces an address
on the third, the shape used by the fileserver address discovery
scenario. -/
def probeThird : Nat → Value :=
  fun j => if j = 3 then Value.str "10.0.0.5" else Value.str ""

/-- A probe that never produces a truthy value. -/
def probeNever : Nat → Value := fun _ => Value.str ""

/-! ### Basic dictionary lemmas -/

theorem getParam_setParam_self (p : Params) (k : String) (v : Value) :
    getParam (setParam p k v) k = some v := by
  induction p with
  | nil => simp [setParam, getParam]
  | cons hd tl ih =>
      obtain ⟨k', v'⟩ := hd
      by_cases h : k' = k
      · simp [setParam, getParam, h]
      · simp [setParam, getParam, h, ih]

theorem getParam_setParam_ne (p : Params) (k key : String) (v : Value)
    (h : k ≠ key) : getParam (setParam p k v) key = getParam p key := by
  induction p with
  | nil => simp [setParam, getParam, h]
  | cons hd tl ih =>
      obtain ⟨k', v'⟩ := hd
      by_cases h' : k' = k
      · subst h'
        simp [setParam, getParam, h]
      · simp [setParam, getParam, h', ih]

theorem emptyParam_setParam_ne (p : Params) (k key : String) (v : Value)
    (h : k ≠ key) : emptyParam (setParam p k v) key = emptyParam p key := by
  simp [emptyParam, getParam_setParam_ne p k key v h]

theorem getParam_defaultKey_ne (p : Params) (k key : String) (v : Value)
    (h : k ≠ key) : getParam (defaultKey p k v) key = getParam p key := by
  unfold defaultKey
  split
  · exact getParam_setParam_ne p k key v h
  · rfl

theorem emptyParam_defaultKey_ne (p : Params) (k key : String) (v : Value)
    (h : k ≠ key) : emptyParam (defaultKey p k v) key = emptyParam p key := by
  simp [emptyParam, getParam_defaultKey_ne p k key v h]

theorem emptyParam_applyDefaults_hostname (p : Params) :
    emptyParam (applyDefaults p) "hostname" = emptyParam p "hostname" := by
  unfold applyDefaults
  rw [emptyParam_defaultKey_ne _ _ _ _ (by decide),
    emptyParam_defaultKey_ne _ _ _ _ (by decide)]

theorem anyEmpty_eq_false_iff (p : Params) (keys : List String) :
    anyEmpty p keys = false ↔ ∀ k ∈ keys, emptyParam p k = false := by
  simp [anyEmpty, List.any_eq_false]

theorem blankAll_cons (p : Params) (k : String) (keys : List String) :
    blankAll p (k :: keys) = blankAll (setParam p k (Value.str "")) keys := rfl

theorem getParam_blankAll_not_mem (keys : List String) :
    ∀ (p : Params) (k : String), k ∉ keys →
      getParam (blankAll p keys) k = getParam p k := by
  induction keys with
  | nil => intro p k _; rfl
  | cons hd tl ih =>
      intro p k hk
      rw [blankAll_cons, ih _ _ (fun h => hk (List.mem_cons_of_mem hd h)),
        getParam_setParam_ne _ _ _ _
          (fun h => hk (by rw [← h]; exact List.mem_cons_self hd tl))]

theorem getParam_blankAll_mem (keys : List String) :
    ∀ (p : Params) (k : String), k ∈ keys →
      getParam (blankAll p keys) k = some (Value.str "") := by
  induction keys with
  | nil => intro p k hk; cases hk
  | cons hd tl ih =>
      intro p k hk
      rw [blankAll_cons]
      by_cases htl : k ∈ tl
      · exact ih _ _ htl
      · have hkh : k = hd := by
          rcases List.mem_cons.mp hk with h | h
          · exact h
          · exact absurd h htl
        subst hkh
        rw [getParam_blankAll_not_mem tl _ _ htl, getParam_setParam_self]

/-! ### Preservation lemmas for the optional-group steps -/

theorem getParam_fireflyStep_ne (p : Params) (k : String)
    (h : k ≠ "firefly_admin_password") :
    getParam (fireflyStep p).1 k = getParam p k := by
  unfold fireflyStep
  split
  · exact getParam_setParam_ne _ _ _ _ (Ne.symm h)
  · rfl

theorem getParam_loggingStep_not_mem (p : Params) (k : String)
    (h : k ∉ logging_vars) :
    getParam (loggingStep p).1 k = getParam p k := by
  unfold loggingStep
  split
  · exact getParam_blankAll_not_mem _ _ _ h
  · rfl

theorem getParam_sessionStep_ne (p : Params) (k : String)
    (h : k ≠ "session_db_url") :
    getParam (sessionStep p) k = getParam p k :=
  getParam_defaultKey_ne _ _ _ _ (Ne.symm h)

theorem getParam_dhparamStep_ne (p : Params) (k : String)
    (h : k ≠ "dhparam_bits") :
    getParam (dhparamStep p) k = getParam p k := by
  unfold dhparamStep
  split
  · exact getParam_defaultKey_ne _ _ _ _ (Ne.symm h)
  · rfl

theorem emptyParam_sessionStep_ne (p : Params) (k : String)
    (h : k ≠ "session_db_url") :
    emptyParam (sessionStep p) k = emptyParam p k := by
  simp [emptyParam, getParam_sessionStep_ne p k h]

theorem emptyParam_dhparamStep_ne (p : Params) (k : String)
    (h : k ≠ "dhparam_bits") :
    emptyParam (dhparamStep p) k = emptyParam p k := by
  simp [emptyParam, getParam_dhparamStep_ne p k h]

theorem getParam_checkOptional (p : Params) (k : String)
    (h1 : k ∉ logging_vars) (h2 : k ≠ "firefly_admin_password")
    (h3 : k ≠ "session_db_url") (h4 : k ≠ "dhparam_bits") :
    getParam (checkOptional p).params k = getParam p k := by
  unfold checkOptional
  dsimp only
  rw [getParam_dhparamStep_ne _ _ h4, getParam_sessionStep_ne _ _ h3,
    getParam_loggingStep_not_mem _ _ h1, getParam_fireflyStep_ne _ _ h2]

/-! ### Polling-loop lemmas -/

theorem waitforAux_success (probe : Nat → Value) (delay tries : Int) (k : Nat)
    (hk : (k : Int) ≤ tries) (hsucc : (probe k).truthy = true)
    (hbefore : ∀ j, j < k → 0 < j → (probe j).truthy = false) :
    ∀ (fuel i : Nat), i < k → k ≤ i + fuel →
      waitforAux probe delay tries i fuel
        = some (WaitResult.ok (probe k) k) := by
  intro fuel
  induction fuel with
  | zero => intro i h1 h2; exact absurd h2 (by omega)
  | succ n ih =>
      intro i h1 h2
      by_cases hik : i + 1 = k
      · subst hik
        simp only [waitforAux, hsucc, if_true]
      · have hf : (probe (i + 1)).truthy = false :=
          hbefore (i + 1) (by omega) (by omega)
        have hne : ((i + 1 : Nat) : Int) ≠ tries := by
          have h3 : i + 1 < k := by omega
          omega
        simp only [waitforAux, hf, Bool.false_eq_true, if_false, if_neg hne]
        exact ih (i + 1) (by omega) (by omega)

theorem waitforAux_timeout (probe : Nat → Value) (delay tries : Int)
    (hempty : ∀ j, (probe j).truthy = false) :
    ∀ (fuel i : Nat), (i : Int) < tries → tries ≤ (i : Int) + (fuel : Int) →
      waitforAux probe delay tries i fuel
        = some (WaitResult.timeout (timeoutMsg tries delay) tries.toNat) := by
  intro fuel
  induction fuel with
  | zero => intro i h1 h2; exact absurd h2 (by omega)
  | succ n ih =>
      intro i h1 h2
      simp only [waitforAux, hempty (i + 1), Bool.false_eq_true, if_false]
      by_cases he : ((i + 1 : Nat) : Int) = tries
      · rw [if_pos he]
        have hco : (i + 1 : Nat) = tries.toNat := by omega
        rw [hco]
      · rw [if_neg he]
        exact ih (i + 1) (by omega) (by omega)

theorem waitforAux_diverges (probe : Nat → Value) (delay tries : Int)
    (ht : tries < 1) (hempty : ∀ j, (probe j).truthy = false) :
    ∀ (fuel i : Nat), waitforAux probe delay tries i fuel = none := by
  intro fuel
  induction fuel with
  | zero => intro i; rfl
  | succ n ih =>
      intro i
      have hne : ((i + 1 : Nat) : Int) ≠ tries := by omega
      simp only [waitforAux, hempty (i + 1), Bool.false_eq_true, if_false,
        if_neg hne]
      exact ih (i + 1)

/-! ### Cache lemmas -/

theorem cacheLookup_cacheSet_self (c : B64Cache) (k v : String) :
    cacheLookup (cacheSet c k v) k = some v := by
  induction c with
  | nil => simp [cacheSet, cacheLookup]
  | cons hd tl ih =>
      obtain ⟨k', v'⟩ := hd
      by_cases h : k' = k
      · simp [cacheSet, cacheLookup, h]
      · simp [cacheSet, cacheLookup, h, ih]

theorem encodeValue_cached (c : B64Cache) (p : Params) (key e : String)
    (hc : cacheLookup c key = some e) (he : e ≠ "") :
    encodeValue c p key = Except.ok (c, e) := by
  unfold encodeValue
  simp [hc, he]

/-! ### Double-precision rounding lemmas -/

theorem bitLenAux_zero (fuel : Nat) : bitLenAux fuel 0 = 0 := by
  cases fuel <;> rfl

theorem bitLenAux_spec :
    ∀ fuel n, n < 2 ^ fuel → 1 ≤ n →
      2 ^ (bitLenAux fuel n - 1) ≤ n ∧ n < 2 ^ bitLenAux fuel n := by
  intro fuel
  induction fuel with
  | zero =>
      intro n h1 h2
      rw [pow_zero] at h1
      omega
  | succ f ih =>
      intro n h1 h2
      have hn0 : ¬ n = 0 := by omega
      simp only [bitLenAux, hn0, if_false]
      by_cases hhalf : n / 2 = 0
      · have hn1 : n = 1 := by omega
        subst hn1
        rw [hhalf, bitLenAux_zero]
        norm_num
      · have hdiv : n / 2 < 2 ^ f := by
          have hstep : n < 2 * 2 ^ f := by
            rw [← pow_succ']
            exact h1
          omega
        obtain ⟨ha, hb⟩ := ih (n / 2) hdiv (by omega)
        set L := bitLenAux f (n / 2) with hL
        have hL1 : 1 ≤ L := by
          by_contra hcon
          have hz : L = 0 := by omega
          rw [hz, pow_zero] at hb
          omega
        constructor
        · have hxp : (2 : Nat) ^ L = 2 * 2 ^ (L - 1) := by
            conv_lhs => rw [show L = (L - 1) + 1 by omega]
            rw [pow_succ]
            ring
          simp only [Nat.add_sub_cancel]
          omega
        · have hxp2 : (2 : Nat) ^ (L + 1) = 2 * 2 ^ L := by
            rw [pow_succ]
            ring
          omega

theorem bitLen_spec (n : Nat) (h1 : 1 ≤ n) (h2 : n < 2 ^ 2048) :
    2 ^ (bitLen n - 1) ≤ n ∧ n < 2 ^ bitLen n :=
  bitLenAux_spec 2048 n h2 h1

theorem rnEven_spec (N k : Nat) (hk : 1 ≤ k) :
    N ≤ rnEven N k * 2 ^ k + 2 ^ (k - 1) ∧
    rnEven N k * 2 ^ k ≤ N + 2 ^ (k - 1) := by
  have hP : (2 : Nat) ^ k = 2 * 2 ^ (k - 1) := by
    conv_lhs => rw [show k = (k - 1) + 1 by omega]
    rw [pow_succ]
    ring
  have hdm : 2 ^ k * (N / 2 ^ k) + N % 2 ^ k = N := Nat.div_add_mod N (2 ^ k)
  have hml : N % 2 ^ k < 2 ^ k := Nat.mod_lt _ (by positivity)
  simp only [rnEven]
  generalize hQ : N / 2 ^ k = Q at hdm ⊢
  generalize hR : N % 2 ^ k = R at hdm hml ⊢
  generalize hH : (2 : Nat) ^ (k - 1) = H at hP ⊢
  generalize hPp : (2 : Nat) ^ k = P at hP hdm hml ⊢
  have e1 : Q * P = P * Q := Nat.mul_comm Q P
  have e2 : (Q + 1) * P = P * Q + P := by ring
  split
  · omega
  · split
    · omega
    · split
      · omega
      · omega

theorem rnEven_exact (N k G t : Nat) (hk : 1 ≤ k)
    (hG : N + t = G * 2 ^ k) (ht0 : 0 < t) (ht : t < 2 ^ (k - 1)) :
    rnEven N k = G := by
  have hP : (2 : Nat) ^ k = 2 * 2 ^ (k - 1) := by
    conv_lhs => rw [show k = (k - 1) + 1 by omega]
    rw [pow_succ]
    ring
  have hG1 : 1 ≤ G := by
    rcases Nat.eq_zero_or_pos G with h | h
    · rw [h, Nat.zero_mul] at hG
      omega
    · exact h
  have hexp : (G - 1) * 2 ^ k + 2 ^ k = G * 2 ^ k := by
    have hsucc : G - 1 + 1 = G := by omega
    calc (G - 1) * 2 ^ k + 2 ^ k = (G - 1 + 1) * 2 ^ k := by ring
      _ = G * 2 ^ k := by rw [hsucc]
  have hQ : N / 2 ^ k = G - 1 := by
    refine Nat.div_eq_of_lt_le ?_ ?_
    · omega
    · have hexp2 : (G - 1 + 1) * 2 ^ k = (G - 1) * 2 ^ k + 2 ^ k := by ring
      omega
  have hRmod : N % 2 ^ k = 2 ^ k - t := by
    have hdm : 2 ^ k * (N / 2 ^ k) + N % 2 ^ k = N := Nat.div_add_mod N (2 ^ k)
    rw [hQ] at hdm
    have hcomm : 2 ^ k * (G - 1) = (G - 1) * 2 ^ k := Nat.mul_comm _ _
    omega
  simp only [rnEven, hQ, hRmod]
  have hc1 : ¬ (2 ^ k - t < 2 ^ (k - 1)) := by omega
  have hc2 : 2 ^ (k - 1) < 2 ^ k - t := by omega
  rw [if_neg hc1, if_pos hc2]
  omega

/-- Below `10 ^ 14` gigabytes the double-precision truncation agrees
with the exact floor `19 * n / 20` (the accumulated rounding error stays
under the 1/20 gap to the next integer); at larger sizes it can differ,
as the counterexample at `10 ^ 16 + 2` shows. -/
theorem truncProd95_eq_floor (n : Nat) (h2 : 2 ≤ n) (hB : n ≤ 10 ^ 14) :
    truncProd95 n = 19 * n / 20 := by
  have hn53 : bitLen n ≤ 53 := by
    by_contra hcon
    have hspec := (bitLen_spec n (by omega)
      (lt_of_le_of_lt hB (by norm_num))).1
    have hmono : (2 : Nat) ^ 53 ≤ 2 ^ (bitLen n - 1) :=
      Nat.pow_le_pow_right (by norm_num) (by omega)
    have hup : n < 2 ^ 53 := lt_of_le_of_lt hB (by norm_num)
    omega
  have hfl : flNat n = n := by
    unfold flNat
    rw [if_pos hn53]
  simp only [truncProd95, hfl]
  set N := D95 * n with hN
  have hNbig : 2 ^ 53 < N := by
    have h1 : D95 * 2 ≤ N := by
      rw [hN]
      exact Nat.mul_le_mul_left D95 h2
    simp only [D95] at h1
    omega
  have hNlt : N < 2 ^ 2048 := by
    have h1 : N ≤ D95 * 10 ^ 14 := by
      rw [hN]
      exact Nat.mul_le_mul_left D95 hB
    have h2' : D95 * 10 ^ 14 < 2 ^ 2048 := by norm_num [D95]
    omega
  obtain ⟨hsz1, hsz2⟩ := bitLen_spec N (by omega) hNlt
  have hs54 : 54 ≤ bitLen N := by
    have h1 : (2 : Nat) ^ 53 < 2 ^ bitLen N := lt_trans hNbig hsz2
    have h2' := (Nat.pow_lt_pow_iff_right (a := 2) (by norm_num)).mp h1
    omega
  set k := bitLen N - 53 with hkdef
  have hk1 : 1 ≤ k := by omega
  have hlow : 2 ^ k * 2 ^ 52 ≤ N := by
    rw [← pow_add, show k + 52 = bitLen N - 1 by omega]
    exact hsz1
  have hhigh : N < 2 ^ k * 2 ^ 53 := by
    rw [← pow_add, show k + 53 = bitLen N by omega]
    exact hsz2
  have hP : (2 : Nat) ^ k = 2 * 2 ^ (k - 1) := by
    conv_lhs => rw [show k = (k - 1) + 1 by omega]
    rw [pow_succ]
    ring
  have hk53 : k ≤ 53 := by
    have hNB : N ≤ D95 * 10 ^ 14 := by
      rw [hN]
      exact Nat.mul_le_mul_left D95 hB
    simp only [D95] at hNB
    by_contra hcon
    have h54k : 54 ≤ k := by omega
    have hm : (2 : Nat) ^ 54 * 2 ^ 52 ≤ 2 ^ k * 2 ^ 52 :=
      Nat.mul_le_mul_right _ (Nat.pow_le_pow_right (by norm_num) h54k)
    omega
  by_cases hmod : 19 * n % 20 = 0
  · obtain ⟨t, rfl⟩ : ∃ t, n = 20 * t := ⟨n / 20, by omega⟩
    have ht1 : 1 ≤ t := by omega
    have hkey : N + 8 * t = 19 * t * 2 ^ 53 := by
      rw [hN]
      simp only [D95]
      omega
    have hfloor : 19 * (20 * t) / 20 = 19 * t := by omega
    rw [hfloor]
    have hsplit : 19 * t * 2 ^ 53 = 19 * t * 2 ^ (53 - k) * 2 ^ k := by
      rw [mul_assoc (19 * t) (2 ^ (53 - k)) (2 ^ k), ← pow_add,
        show 53 - k + k = 53 by omega]
    have h8t : 8 * t < 2 ^ (k - 1) := by
      have h16 : 16 * t * 2 ^ 53 ≤ N := by
        rw [hN]
        simp only [D95]
        omega
      rw [hP] at hhigh
      omega
    have hre := rnEven_exact N k (19 * t * 2 ^ (53 - k)) (8 * t) hk1
      (by rw [← hsplit]; exact hkey) (by omega) h8t
    rw [hre, ← hsplit]
    omega
  · obtain ⟨hbnd1, hbnd2⟩ := rnEven_spec N k hk1
    have hkey : 20 * N + 8 * n = 19 * n * 2 ^ 53 := by
      rw [hN]
      simp only [D95]
      omega
    have hPn : 2 ^ k < 2 * n := by
      have hup : N < 2 * n * 2 ^ 52 := by
        rw [hN]
        simp only [D95]
        omega
      omega
    set MP := rnEven N k * 2 ^ k with hMP
    omega


/-! ### Claim theorems -/

/-- C1: the claim states that when the cluster name is unset but the
hostname is set, `_get_cluster_info` derives the cluster name (dots
replaced by dashes), stores it, logs it, and proceeds without raising.
Evaluating the embedding at such an input shows the derivation, the
store, and the log do happen — and the `ValueError` is raised anyway,
because the `raise` at deploy.py:221 is not guarded by an `else`.  This
contradicts the intent expressed by the error message itself
("must be set, either explicitly or from hostname") and by the parallel
derivation in `get_options_from_user` (deploy.py:1012-1016), which does
proceed. -/
theorem get_cluster_info_derives_then_raises :
    getClusterInfo [("hostname", Value.str "demo.example.org")] =
      ([("hostname", Value.str "demo.example.org"),
        ("kubernetes_cluster_name", Value.str "demo-example-org")],
       ["Using default derived cluster name demo-example-org"],
       some clusterNameMsg) := by rfl

/-- C2: the claim states that the kubectl context captured at entry is
restored on every exit path of `kubecontext`, including a propagated
exception.  The embedding shows that on the success path the captured
context is indeed restored, but when the body raises the ambient context
is left at whatever the body set, because the generator-based context
manager has no `try`/`finally` around its `yield` (deploy.py:125-129):
code after the `yield` never runs when the exception is thrown into the
generator.  This contradicts the docstring "Save and restore original
Kubernetes context." -/
theorem kubecontext_not_restored_on_exception :
    kubecontext true "orig-context"
        (fun _ => ((Outcome.raised "cluster create failed" : Outcome Unit),
          "demo-cluster-ctx"))
      = (Outcome.raised "cluster create failed", "demo-cluster-ctx") ∧
    kubecontext true "orig-context"
        (fun _ => ((Outcome.ok () : Outcome Unit), "demo-cluster-ctx"))
      = (Outcome.ok (), "orig-context") ∧
    ("demo-cluster-ctx" : String) ≠ "orig-context" :=
  ⟨rfl, rfl, by decide⟩

/-- C3 counterexample: `tls_cert` is a required-for-deploy key, the
parameter set below leaves it empty, yet `_validate_deployment_params`
succeeds — refuting the claim that deploy-path validation fails for every
missing required-for-deploy key. -/
theorem validate_missing_deploy_key_accepted :
    ("tls_cert" ∈ REQUIRED_DEPLOYMENT_PARAMETER_NAMES) ∧
    emptyParam [("kubernetes_cluster_name", Value.str "demo"),
      ("hostname", Value.str "demo.example.org")] "tls_cert" = true ∧
    isOkE (validateDeploymentParams
      [("kubernetes_cluster_name", Value.str "demo"),
       ("hostname", Value.str "demo.example.org")]) = true :=
  ⟨by decide, rfl, rfl⟩

/-- C3 (amended): deploy-path validation checks only the
required-for-teardown keys.  For every parameter set whose hostname
value, when present, is a string: if the cluster name or the hostname is
missing or empty, `_validate_deployment_params` fails, with either the
cluster-name error or the error naming the whole required teardown key
list (never the single missing key). -/
theorem validate_teardown_keys_required (p : Params)
    (hs : ∀ v, getParam p "hostname" = some v → ∃ s, v = Value.str s)
    (h : emptyParam p "kubernetes_cluster_name" = true ∨
         emptyParam p "hostname" = true) :
    validateDeploymentParams p = Except.error clusterNameMsg ∨
    validateDeploymentParams p = Except.error requiredMsg := by
  by_cases hc : emptyParam p "kubernetes_cluster_name"
  · left
    unfold validateDeploymentParams getClusterInfo
    rw [if_pos hc]
    by_cases hh : emptyParam p "hostname"
    · rw [if_pos hh]
    · rw [if_neg hh]
      cases hv : getParam p "hostname" with
      | none =>
          exfalso
          unfold emptyParam at hh
          rw [hv] at hh
          exact hh rfl
      | some v =>
          obtain ⟨s, rfl⟩ := hs v hv
          rfl
  · right
    have hh : emptyParam p "hostname" = true := by
      rcases h with h | h
      · exact absurd h hc
      · exact h
    have h2 : emptyParam (applyDefaults p) "hostname" = true := by
      rw [emptyParam_applyDefaults_hostname]; exact hh
    have hA : anyEmpty (applyDefaults p) REQUIRED_PARAMETER_NAMES = true := by
      simp only [anyEmpty, REQUIRED_PARAMETER_NAMES, List.any_eq_true]
      exact ⟨"hostname", by simp, h2⟩
    unfold validateDeploymentParams getClusterInfo
    rw [if_neg hc]
    dsimp only
    rw [if_pos hA]

/-- C3 witness: instantiating the amended validation theorem at a
parameter set with a hostname and no cluster name. -/
theorem validate_teardown_keys_required_witness :
    validateDeploymentParams [("hostname", Value.str "demo.example.org")]
        = Except.error clusterNameMsg ∨
    validateDeploymentParams [("hostname", Value.str "demo.example.org")]
        = Except.error requiredMsg :=
  validate_teardown_keys_required _
    (fun v hv => ⟨"demo.example.org", by
      rw [show getParam [("hostname", Value.str "demo.example.org")] "hostname"
            = some (Value.str "demo.example.org") from rfl] at hv
      exact (Option.some.inj hv).symm⟩)
    (Or.inl (by decide))

/-- C4: the claim states that loading a file-sourced parameter document
with unknown keys returns normally, warning on each unknown key.
Evaluating `_set_params` at a document containing the unrecognized key
`bogus_key` shows that instead the load raises (`NameError`: the
unknown-key loop at deploy.py:178 iterates over the unbound module-level
name `params`), and no warning is logged. -/
theorem set_params_loader_raises :
    setParams none
        [("kubernetes_cluster_name", Value.str "c"),
         ("bogus_key", Value.str "x")]
      = ([("kubernetes_cluster_name", Value.str "c"),
          ("bogus_key", Value.str "x")], [], some nameErrorMsg) ∧
    "bogus_key" ∉ PARAMETER_NAMES :=
  ⟨rfl, by decide⟩

/-- C5: for every probe, delay and try budget at least 1: if the probe is
empty on its first `k - 1` calls and truthy on call `k` with
`k ≤ tries`, `_waitfor` returns that value after exactly `k` probe calls;
if the probe is empty on every call, `_waitfor` raises after exactly
`tries` probe calls with the attempt count and the delay interval in the
error message. -/
theorem waitfor_poll_spec (probe : Nat → Value) (delay tries : Int)
    (fuel : Nat) :
    (∀ k : Nat, 0 < k → (k : Int) ≤ tries → k ≤ fuel →
      (∀ j, j < k → 0 < j → (probe j).truthy = false) →
      (probe k).truthy = true →
      waitfor probe delay tries fuel = some (WaitResult.ok (probe k) k)) ∧
    ((∀ j, (probe j).truthy = false) → 1 ≤ tries → tries.toNat ≤ fuel →
      waitfor probe delay tries fuel
        = some (WaitResult.timeout (timeoutMsg tries delay) tries.toNat)) := by
  constructor
  · intro k hk0 hkt hkf hbef hsucc
    exact waitforAux_success probe delay tries k hkt hsucc hbef fuel 0 hk0
      (by omega)
  · intro hempty ht hf
    exact waitforAux_timeout probe delay tries hempty fuel 0 (by omega)
      (by omega)

/-- C5 witness: a probe that answers on the third call succeeds after
exactly three calls; a probe that never answers times out after exactly
four calls when the budget is four. -/
theorem waitfor_poll_spec_witness :
    waitfor probeThird 10 10 10 = some (WaitResult.ok (probeThird 3) 3) ∧
    waitfor probeNever 10 4 10
      = some (WaitResult.timeout (timeoutMsg 4 10) (4 : Int).toNat) := by
  constructor
  · exact (waitfor_poll_spec probeThird 10 10 10).1 3 (by decide) (by decide)
      (by decide) (by decide) (by decide)
  · exact (waitfor_poll_spec probeNever 10 4 10).2 (fun j => rfl)
      (by decide) (by decide)

/-- C6: when the teardown pod-exit poll exhausts its try budget,
`_destroy_pods_with_callback` swallows the failure with a warning and
continues if the enclosing cluster is about to be destroyed
(`existing_cluster` unset), and re-raises it when the cluster is being
preserved (`existing_cluster` set); and the pod-exit poll default budget
(60 tries) is larger than the creation-time address-discovery budget
(the `_waitfor` default of 10 tries). -/
theorem destroy_pods_timeout_policy (probe : Nat → Value) (poddesc : String)
    (tries : Int) (fuel : Nat) (h1 : 1 ≤ tries)
    (hempty : ∀ j, (probe j).truthy = false) (hfuel : tries.toNat ≤ fuel) :
    (destroyPodsWithCallback probe poddesc false tries fuel
      = some (Except.ok ["Waiting for " ++ poddesc ++ " pods to exit.",
          "All " ++ poddesc ++ " pods did not exit.  Continuing."])) ∧
    (destroyPodsWithCallback probe poddesc true tries fuel
      = some (Except.error (timeoutMsg tries WAITFOR_DEFAULT_DELAY))) ∧
    DESTROY_PODS_DEFAULT_TRIES = 60 ∧ WAITFOR_DEFAULT_TRIES = 10 ∧
    WAITFOR_DEFAULT_TRIES < DESTROY_PODS_DEFAULT_TRIES := by
  have hw : waitfor probe WAITFOR_DEFAULT_DELAY tries fuel
      = some (WaitResult.timeout (timeoutMsg tries WAITFOR_DEFAULT_DELAY)
          tries.toNat) :=
    waitforAux_timeout probe WAITFOR_DEFAULT_DELAY tries hempty fuel 0
      (by omega) (by omega)
  refine ⟨?_, ?_, rfl, rfl, by decide⟩ <;>
    simp [destroyPodsWithCallback, hw]

/-- C6 witness: instantiating the teardown timeout policy at the default
60-try budget with a probe that never sees the pods exit. -/
theorem destroy_pods_timeout_policy_witness :
    (destroyPodsWithCallback probeNever "keepalive" false 60 60
      = some (Except.ok ["Waiting for keepalive pods to exit.",
          "All keepalive pods did not exit.  Continuing."])) ∧
    (destroyPodsWithCallback probeNever "keepalive" true 60 60
      = some (Except.error (timeoutMsg 60 WAITFOR_DEFAULT_DELAY))) := by
  have h := destroy_pods_timeout_policy probeNever "keepalive" 60 60
    (by decide) (fun j => rfl) (by decide)
  exact ⟨h.1, h.2.1⟩

/-- C7: after `_check_optional`, the logging key group is either fully
non-empty with `enable_logging` on, or every key of the group is the
empty string with `enable_logging` off; likewise the firefly group
(admin password) with `enable_firefly` — no group is left partially
populated, for every input parameter set. -/
theorem check_optional_feature_groups (p : Params) :
    (((checkOptional p).enable_logging = true ∧
        ∀ k ∈ logging_vars,
          emptyParam (checkOptional p).params k = false) ∨
      ((checkOptional p).enable_logging = false ∧
        ∀ k ∈ logging_vars,
          getParam (checkOptional p).params k = some (Value.str ""))) ∧
    (((checkOptional p).enable_firefly = true ∧
        emptyParam (checkOptional p).params "firefly_admin_password"
          = false) ∨
      ((checkOptional p).enable_firefly = false ∧
        getParam (checkOptional p).params "firefly_admin_password"
          = some (Value.str ""))) := by
  have hkeys : ∀ x ∈ logging_vars,
      x ≠ "dhparam_bits" ∧ x ≠ "session_db_url" := by decide
  constructor
  · by_cases hA : anyEmpty (fireflyStep p).1 logging_vars
    · right
      have hl : loggingStep (fireflyStep p).1
          = (blankAll (fireflyStep p).1 logging_vars, false) := by
        unfold loggingStep; rw [if_pos hA]
      constructor
      · show (loggingStep (fireflyStep p).1).2 = false
        rw [hl]
      · intro k hk
        obtain ⟨hk4, hk3⟩ := hkeys k hk
        show getParam
          (dhparamStep (sessionStep (loggingStep (fireflyStep p).1).1)) k
            = some (Value.str "")
        rw [getParam_dhparamStep_ne _ _ hk4, getParam_sessionStep_ne _ _ hk3,
          hl]
        exact getParam_blankAll_mem _ _ _ hk
    · left
      have hl : loggingStep (fireflyStep p).1 = ((fireflyStep p).1, true) := by
        unfold loggingStep; rw [if_neg hA]
      constructor
      · show (loggingStep (fireflyStep p).1).2 = true
        rw [hl]
      · intro k hk
        obtain ⟨hk4, hk3⟩ := hkeys k hk
        have hne : emptyParam (fireflyStep p).1 k = false :=
          (anyEmpty_eq_false_iff _ _).mp (Bool.not_eq_true _ ▸ hA) k hk
        show emptyParam
          (dhparamStep (sessionStep (loggingStep (fireflyStep p).1).1)) k
            = false
        rw [emptyParam_dhparamStep_ne _ _ hk4,
          emptyParam_sessionStep_ne _ _ hk3, hl]
        exact hne
  · have hff : "firefly_admin_password" ∉ logging_vars := by decide
    by_cases hF : emptyParam p "firefly_admin_password"
    · right
      have hf : fireflyStep p
          = (setParam p "firefly_admin_password" (Value.str ""), false) := by
        unfold fireflyStep; rw [if_pos hF]
      constructor
      · show (fireflyStep p).2 = false
        rw [hf]
      · show getParam
          (dhparamStep (sessionStep (loggingStep (fireflyStep p).1).1))
            "firefly_admin_password" = some (Value.str "")
        rw [getParam_dhparamStep_ne _ _ (by decide),
          getParam_sessionStep_ne _ _ (by decide),
          getParam_loggingStep_not_mem _ _ hff, hf]
        exact getParam_setParam_self _ _ _
    · left
      have hf : fireflyStep p = (p, true) := by
        unfold fireflyStep; rw [if_neg hF]
      constructor
      · show (fireflyStep p).2 = true
        rw [hf]
      · show emptyParam
          (dhparamStep (sessionStep (loggingStep (fireflyStep p).1).1))
            "firefly_admin_password" = false
        rw [emptyParam_dhparamStep_ne _ _ (by decide),
          emptyParam_sessionStep_ne _ _ (by decide)]
        have : getParam (loggingStep (fireflyStep p).1).1
            "firefly_admin_password" = getParam p "firefly_admin_password" := by
          rw [getParam_loggingStep_not_mem _ _ hff, hf]
        unfold emptyParam
        rw [this]
        unfold emptyParam at hF
        exact Bool.not_eq_true _ ▸ hF

/-- C7 witness: a parameter set populating only one logging key has the
whole group reset to empty strings with the flag off. -/
theorem check_optional_feature_groups_witness :
    (checkOptional [("rabbitmq_pan_password", Value.str "x")]).enable_logging
        = false ∧
    getParam (checkOptional
        [("rabbitmq_pan_password", Value.str "x")]).params
        "rabbitmq_pan_password" = some (Value.str "") := by
  have h :=
    (check_optional_feature_groups [("rabbitmq_pan_password", Value.str "x")]).1
  rcases h with ⟨ht, _⟩ | ⟨hf, hall⟩
  · exact absurd ht (by decide)
  · exact ⟨hf, hall _ (by decide)⟩

/-- C8 (amended): for every validated integer volume size `n` with
`1 ≤ n ≤ 10 ^ 14`, `_normalize_params` sets `volume_size` to `n`
followed by Gi, and sets `nfs_volume_size` to `floor(0.95 * n)` followed
by Gi when `n > 1` (`19 * n / 20` in exact arithmetic, which the final
conjunct identifies with the rational floor) and to the fixed constant
950Mi when `n = 1`.  Beyond the bound the double-precision product
`int(0.95 * sz)` can exceed the exact floor (counterexample at
`n = 10 ^ 16 + 2`), so the floor description holds only on the bounded
range. -/
theorem normalize_sizing (p : Params) (n : Int) (h : String)
    (wl : List String)
    (hn : getParam p "volume_size_gigabytes" = some (Value.int n))
    (hn1 : 1 ≤ n) (hBnd : n ≤ 10 ^ 14)
    (hh : getParam p "hostname" = some (Value.str h))
    (hw : getParam p "github_organization_whitelist"
        = some (Value.list wl)) :
    ∃ r : OptionalFlags, normalizeParams p = Except.ok r ∧
      getParam r.params "volume_size"
        = some (Value.str (toString n ++ "Gi")) ∧
      (1 < n → getParam r.params "nfs_volume_size"
        = some (Value.str (toString ((19 * n.toNat) / 20) ++ "Gi"))) ∧
      (n = 1 → getParam r.params "nfs_volume_size"
        = some (Value.str "950Mi")) ∧
      (19 * n.toNat) / 20 = Nat.floor ((0.95 : ℚ) * (n.toNat : ℚ)) := by
  have hh2 : getParam (setParam (setParam p "volume_size"
      (Value.str (toString n ++ "Gi"))) "nfs_volume_size"
      (Value.str (if 1 < n then toString (truncProd95 n.toNat) ++ "Gi"
        else "950Mi"))) "hostname" = some (Value.str h) := by
    rw [getParam_setParam_ne _ _ _ _ (by decide),
      getParam_setParam_ne _ _ _ _ (by decide)]
    exact hh
  have hw2 : getParam (setParam (setParam (setParam p "volume_size"
      (Value.str (toString n ++ "Gi"))) "nfs_volume_size"
      (Value.str (if 1 < n then toString (truncProd95 n.toNat) ++ "Gi"
        else "950Mi"))) "github_callback_url"
      (Value.str ("https://" ++ h ++ "/hub/oauth_callback")))
      "github_organization_whitelist" = some (Value.list wl) := by
    rw [getParam_setParam_ne _ _ _ _ (by decide),
      getParam_setParam_ne _ _ _ _ (by decide),
      getParam_setParam_ne _ _ _ _ (by decide)]
    exact hw
  unfold normalizeParams
  rw [hn]
  dsimp only
  rw [hh2]
  dsimp only
  rw [hw2]
  refine ⟨_, rfl, ?_, ?_, ?_, ?_⟩
  · rw [getParam_checkOptional _ _ (by decide) (by decide) (by decide)
      (by decide),
      getParam_setParam_ne _ _ _ _ (by decide),
      getParam_setParam_ne _ _ _ _ (by decide),
      getParam_setParam_ne _ _ _ _ (by decide),
      getParam_setParam_self]
  · intro hlt
    rw [getParam_checkOptional _ _ (by decide) (by decide) (by decide)
      (by decide),
      getParam_setParam_ne _ _ _ _ (by decide),
      getParam_setParam_ne _ _ _ _ (by decide),
      getParam_setParam_self, if_pos hlt,
      truncProd95_eq_floor n.toNat (by omega) (by omega)]
  · intro h1
    subst h1
    rw [getParam_checkOptional _ _ (by decide) (by decide) (by decide)
      (by decide),
      getParam_setParam_ne _ _ _ _ (by decide),
      getParam_setParam_ne _ _ _ _ (by decide),
      getParam_setParam_self]
    norm_num
  · have h20 : ((0.95 : ℚ) * (n.toNat : ℚ))
        = ((19 * n.toNat : ℕ) : ℚ) / ((20 : ℕ) : ℚ) := by
      push_cast
      ring_nf
    rw [h20, Nat.floor_div_nat, Nat.floor_natCast]

set_option maxRecDepth 10000 in
/-- C8 counterexample: at the validated volume size `10 ^ 16 + 2` the
claim as stated fails on the code: Python `int(0.95 * sz)` computes
`9500000000000002` (the exact product `double(0.95) * sz` lies nearer
the next even-spaced double above), while `floor(0.95 * sz)` is
`9500000000000001`, so `_normalize_params` stores 9500000000000002Gi and
not the floor value.  The third conjunct pins the embedded significand:
`D95 * 2 ^ (-53)` underestimates 19/20 by exactly 0.4 units in the last
place, making it the nearest double to 0.95. -/
theorem nfs_volume_size_not_exact_floor :
    (∃ r : OptionalFlags,
      normalizeParams [("volume_size_gigabytes", Value.int (10 ^ 16 + 2)),
          ("hostname", Value.str "demo.example.org"),
          ("github_organization_whitelist", Value.list ["lsst"])]
        = Except.ok r ∧
      getParam r.params "nfs_volume_size"
        = some (Value.str "9500000000000002Gi")) ∧
    19 * (10 ^ 16 + 2) / 20 = 9500000000000001 ∧
    20 * D95 + 8 = 19 * 2 ^ 53 ∧
    ("9500000000000002Gi" : String) ≠ "9500000000000001Gi" := by
  refine ⟨⟨_, rfl, rfl⟩, by norm_num, by norm_num [D95], by decide⟩

/-- C8 witness: the minimal valid scenario with volume size 20 yields
volume size 20Gi and NFS size 19Gi. -/
theorem normalize_sizing_witness :
    ∃ r : OptionalFlags,
      normalizeParams [("volume_size_gigabytes", Value.int 20),
          ("hostname", Value.str "demo.example.org"),
          ("github_organization_whitelist", Value.list ["lsst"])]
        = Except.ok r ∧
      getParam r.params "volume_size"
        = some (Value.str (toString (20 : Int) ++ "Gi")) ∧
      ((1 : Int) < 20 → getParam r.params "nfs_volume_size"
        = some (Value.str (toString ((19 * (20 : Int).toNat) / 20) ++ "Gi"))) ∧
      ((20 : Int) = 1 → getParam r.params "nfs_volume_size"
        = some (Value.str "950Mi")) ∧
      (19 * (20 : Int).toNat) / 20
        = Nat.floor ((0.95 : ℚ) * (((20 : Int).toNat : ℚ))) :=
  normalize_sizing _ 20 "demo.example.org" ["lsst"] rfl (by norm_num)
    (by norm_num) rfl rfl

/-- C9 counterexample: the class-level `b64_cache` persists across runs
in one process.  A first run encoding `github_client_id = aaa` caches
YWFh; a second run in the same process with `github_client_id = bbb`
then returns the stale YWFh, while the same run starting from a fresh
process cache returns YmJi — refuting the claim that successive runs are
independent of each other. -/
theorem b64_cache_stale_across_runs :
    encodeValue [] [("github_client_id", Value.str "aaa")] "github_client_id"
      = Except.ok ([("github_client_id", "YWFh")], "YWFh") ∧
    encodeValue [("github_client_id", "YWFh")]
        [("github_client_id", Value.str "bbb")] "github_client_id"
      = Except.ok ([("github_client_id", "YWFh")], "YWFh") ∧
    encodeValue [] [("github_client_id", Value.str "bbb")] "github_client_id"
      = Except.ok ([("github_client_id", "YmJi")], "YmJi") ∧
    ("YWFh" : String) ≠ "YmJi" :=
  ⟨rfl, rfl, rfl, by decide⟩

/-- C9 (amended): once `encode_value` has produced a non-empty encoding
for a key, any later call for that key — in the same run or in a later
run of the same process, and against any parameter dictionary — returns
the cached encoding unchanged without re-reading the parameter: the cache
memoizes per process, not per run. -/
theorem encode_value_memoized_sticky (cache c2 : B64Cache) (p p2 : Params)
    (key e : String) (h : encodeValue cache p key = Except.ok (c2, e))
    (he : e ≠ "") :
    encodeValue c2 p2 key = Except.ok (c2, e) := by
  unfold encodeValue at h
  cases hc : cacheLookup cache key with
  | some v =>
      simp only [hc] at h
      by_cases hv : v = ""
      · rw [if_pos hv] at h
        cases hg : getParam p key with
        | none => simp only [hg] at h; exact absurd h (by simp)
        | some w =>
            cases w with
            | str s =>
                simp only [hg] at h
                rw [Except.ok.injEq, Prod.mk.injEq] at h
                obtain ⟨h1, h2⟩ := h
                subst h1
                subst h2
                exact encodeValue_cached _ _ _ _
                  (cacheLookup_cacheSet_self _ _ _) he
            | int m => simp only [hg] at h; exact absurd h (by simp)
            | list l => simp only [hg] at h; exact absurd h (by simp)
      · rw [if_neg hv] at h
        rw [Except.ok.injEq, Prod.mk.injEq] at h
        obtain ⟨h1, h2⟩ := h
        subst h1
        subst h2
        exact encodeValue_cached _ _ _ _ hc he
  | none =>
      simp only [hc] at h
      cases hg : getParam p key with
      | none => simp only [hg] at h; exact absurd h (by simp)
      | some w =>
          cases w with
          | str s =>
              simp only [hg] at h
              rw [Except.ok.injEq, Prod.mk.injEq] at h
              obtain ⟨h1, h2⟩ := h
              subst h1
              subst h2
              exact encodeValue_cached _ _ _ _
                (cacheLookup_cacheSet_self _ _ _) he
          | int m => simp only [hg] at h; exact absurd h (by simp)
          | list l => simp only [hg] at h; exact absurd h (by simp)

/-- C9 witness: a cache already holding YWFh for `tls_cert` answers a
second run with a different parameter value by returning the cached
encoding unchanged. -/
theorem encode_value_memoized_sticky_witness :
    encodeValue [("tls_cert", "YWFh")] [("tls_cert", Value.str "zzz")]
        "tls_cert"
      = Except.ok ([("tls_cert", "YWFh")], "YWFh") :=
  encode_value_memoized_sticky [] _ [("tls_cert", Value.str "aaa")] _
    "tls_cert" "YWFh" rfl (by decide)

/-- C10: when the try budget is less than 1 and the probe never returns
a truthy value, the `_waitfor` loop neither returns nor raises within any
finite number of iterations — the counter starts at 1 and increments, so
it never equals a budget below 1; callers must pass a budget of at least
1 for the documented timeout behavior. -/
theorem waitfor_diverges_nonpositive_tries (probe : Nat → Value)
    (delay tries : Int) (ht : tries < 1)
    (hempty : ∀ j, (probe j).truthy = false) :
    ∀ fuel : Nat, waitfor probe delay tries fuel = none :=
  fun fuel => waitforAux_diverges probe delay tries ht hempty fuel 0

/-- C10 witness: a zero-try budget with an always-empty probe produces no
outcome in 25 iterations. -/
theorem waitfor_diverges_witness :
    waitfor probeNever 10 0 25 = none :=
  waitfor_diverges_nonpositive_tries probeNever 10 0 (by decide)
    (fun j => rfl) 25
